import Mathlib

/-!
Verification of the queryark connection/query brokerage backend.

Strings of the Rust source are modelled as `List Char` (`Str` below).
Rust `str::to_uppercase` appears in two places.  In `is_paginatable_query`
it is modelled by `rustToUpper`, which carries the full ASCII case mapping
together with every Unicode code point whose uppercase expansion contains
an ASCII character; every remaining character uppercases (in the real
function) to non-ASCII characters only, so the prefix tests against the
four ASCII keywords coincide extensionally with the source.  In
`wrap_paginated` the ORDER BY containment test uses the ASCII-only model
`toUpperAscii`.
Rust `String::len` (UTF-8 byte count) is modelled by summing `Char.utf8Size`.
The `f64` payload of a `Float` cell is modelled by its bit pattern; no claim
depends on floating-point arithmetic, and the one cast the source performs
is kept abstract as a parameter.
-/

set_option maxRecDepth 100000
set_option maxHeartbeats 1000000

namespace QueryArk

/-- Strings are lists of unicode scalar values, as in Rust `str::chars`. -/
abbrev Str := List Char

/-- The single-quote character (U+0027). -/
def sqc : Char := Char.ofNat 39

/-- The backslash character (U+005C). -/
def bsc : Char := Char.ofNat 92

/-- The NUL character (U+0000). -/
def nulc : Char := Char.ofNat 0

/-- The line-feed character (U+000A). -/
def nlc : Char := Char.ofNat 10

/-- The carriage-return character (U+000D). -/
def crc : Char := Char.ofNat 13

/-- The backspace character (U+0008). -/
def bspc : Char := Char.ofNat 8

/-- The substitute character (U+001A), written `\x1a` in the source. -/
def subc : Char := Char.ofNat 26

/-- Unicode `White_Space` predicate, as used by Rust `char::is_whitespace`. -/
def isRustWhitespace (c : Char) : Bool :=
  let n := c.toNat
  n = 0x9 || n = 0xA || n = 0xB || n = 0xC || n = 0xD || n = 0x20 ||
  n = 0x85 || n = 0xA0 || n = 0x1680 || (0x2000 ≤ n && n ≤ 0x200A) ||
  n = 0x2028 || n = 0x2029 || n = 0x202F || n = 0x205F || n = 0x3000

/-- Rust `str::trim_start`. -/
def rustTrimStart (s : Str) : Str := s.dropWhile isRustWhitespace

/-- Rust `str::trim_end`. -/
def rustTrimEnd (s : Str) : Str := (s.reverse.dropWhile isRustWhitespace).reverse

/-- Rust `str::trim`. -/
def rustTrim (s : Str) : Str := rustTrimEnd (rustTrimStart s)

/-- Rust `str::trim_end_matches(';')`: strip every trailing semicolon. -/
def trimEndSemicolons (s : Str) : Str :=
  (s.reverse.dropWhile (fun c => c = ';')).reverse

/-- Rust `str::to_uppercase`, restricted to its ASCII case mapping. -/
def toUpperAscii (s : Str) : Str := s.map Char.toUpper

/-- Per-character Rust `char::to_uppercase`, restricted to the mappings
whose output contains an ASCII character: the ASCII case mapping and the
complete set of Unicode code points with ASCII in their uppercase
expansion — U+00DF sharp s, U+0131 dotless i, U+0149 apostrophe-n,
U+017F long s, U+01F0 j-caron, U+1E96-U+1E9A (h/t/w/y/a with combining
marks), and the Latin ligatures U+FB00-U+FB06.  Every other character is
kept in place; its real uppercase, where it differs, consists of non-ASCII
characters only, so prefix and substring tests against ASCII keywords are
unaffected. -/
def rustToUpperChar (c : Char) : List Char :=
  if c.toNat = 0xDF then ['S', 'S']
  else if c.toNat = 0x131 then ['I']
  else if c.toNat = 0x149 then [Char.ofNat 0x2BC, 'N']
  else if c.toNat = 0x17F then ['S']
  else if c.toNat = 0x1F0 then ['J', Char.ofNat 0x30C]
  else if c.toNat = 0x1E96 then ['H', Char.ofNat 0x331]
  else if c.toNat = 0x1E97 then ['T', Char.ofNat 0x308]
  else if c.toNat = 0x1E98 then ['W', Char.ofNat 0x30A]
  else if c.toNat = 0x1E99 then ['Y', Char.ofNat 0x30A]
  else if c.toNat = 0x1E9A then ['A', Char.ofNat 0x2BE]
  else if c.toNat = 0xFB00 then ['F', 'F']
  else if c.toNat = 0xFB01 then ['F', 'I']
  else if c.toNat = 0xFB02 then ['F', 'L']
  else if c.toNat = 0xFB03 then ['F', 'F', 'I']
  else if c.toNat = 0xFB04 then ['F', 'F', 'L']
  else if c.toNat = 0xFB05 then ['S', 'T']
  else if c.toNat = 0xFB06 then ['S', 'T']
  else [c.toUpper]

/-- Rust `str::to_uppercase` as used by the pagination prefix test:
`rustToUpperChar` applied to each character. -/
def rustToUpper (s : Str) : Str := s.flatMap rustToUpperChar

/-- Rust `str::contains(needle)` substring search. -/
def containsSubstring : Str → Str → Bool
  | [], needle => needle.isEmpty
  | c :: t, needle => needle.isPrefixOf (c :: t) || containsSubstring t needle

/-- Rust `i64`/`usize` rendering through `format!`, as decimal text. -/
def intToStr (i : Int) : Str := (toString i).data

/-- UTF-8 byte length of a string, Rust `String::len`. -/
def utf8Len (s : Str) : Nat := (s.map Char.utf8Size).sum

/-- Error taxonomy of `src-tauri/src/error.rs` (`AppError`). -/
inductive AppError where
  | Database (msg : Str)
  | ConnectionNotFound (msg : Str)
  | InvalidConfig (msg : Str)
  | Serialization (msg : Str)
  | UnsupportedOperation (msg : Str)
  | QueryTimeout (secs : Nat)
  | QueryCancelled
  | ConnectionFailed (db_type host cause : Str)
  | SshTunnel (msg : Str)
  | Keychain (msg : Str)
  | ConnectionLost (msg : Str)
  deriving DecidableEq, Repr

/-- Per-character expansion of `escape_sql_literal` (`db/escape.rs`):
single quote doubles, backslash doubles, and NUL/LF/CR/BS/SUB gain a
backslash prefix; every other character passes through. -/
def escape_char (c : Char) : Str :=
  if c = sqc then [sqc, sqc]
  else if c = bsc then [bsc, bsc]
  else if c = nulc then [bsc, '0']
  else if c = nlc then [bsc, 'n']
  else if c = crc then [bsc, 'r']
  else if c = bspc then [bsc, 'b']
  else if c = subc then [bsc, 'Z']
  else [c]

/-- `escape_sql_literal` of `db/escape.rs`: the loop pushing `escape_char`
expansions in order. -/
def escape_sql_literal (s : Str) : Str := s.flatMap escape_char

/-- Inverse of the documented escape set: undoes doubled quotes, doubled
backslashes and the five backslash escapes, left to right.  This definition
follows the spec sentence asserting an unescape with
`unescape(escape(s)) = s`; it has no counterpart under `src/`. -/
def unescape_sql_literal : Str → Str
  | [] => []
  | [c] => [c]
  | c1 :: c2 :: rest =>
    if c1 = sqc ∧ c2 = sqc then sqc :: unescape_sql_literal rest
    else if c1 = bsc ∧ c2 = bsc then bsc :: unescape_sql_literal rest
    else if c1 = bsc ∧ c2 = '0' then nulc :: unescape_sql_literal rest
    else if c1 = bsc ∧ c2 = 'n' then nlc :: unescape_sql_literal rest
    else if c1 = bsc ∧ c2 = 'r' then crc :: unescape_sql_literal rest
    else if c1 = bsc ∧ c2 = 'b' then bspc :: unescape_sql_literal rest
    else if c1 = bsc ∧ c2 = 'Z' then subc :: unescape_sql_literal rest
    else c1 :: unescape_sql_literal (c2 :: rest)

/-- `validate_identifier` of `db/escape.rs`: reject empty names and names
containing NUL, pass everything else through. -/
def validate_identifier (name : Str) : Except AppError Str :=
  if name = [] then
    .error (.InvalidConfig "Identifier must not be empty".data)
  else if nulc ∈ name then
    .error (.InvalidConfig "Identifier must not contain null bytes".data)
  else .ok name

/-- `is_paginatable_query` of `commands/query.rs`: the trimmed, upper-cased
body starts with one of the four paginatable keywords.  Uppercasing uses
`rustToUpper`, which agrees with Rust `str::to_uppercase` on every
character whose uppercase can contribute to a match against the four ASCII
keywords (including the non-ASCII characters long s and dotless i), so
this predicate is extensionally the source's. -/
def is_paginatable_query (sql : Str) : Bool :=
  let upper := rustToUpper (rustTrim sql)
  "SELECT".data.isPrefixOf upper || "WITH".data.isPrefixOf upper ||
  "TABLE".data.isPrefixOf upper || "VALUES".data.isPrefixOf upper

/-- `wrap_paginated` of `commands/query.rs`: MSSQL gets OFFSET/FETCH (with a
neutral ORDER BY added when none is present); every other dialect gets the
subquery LIMIT/OFFSET wrapper. -/
def wrap_paginated (sql : Str) (limit offset : Int) (dialect : Str) : Str :=
  let trimmed := trimEndSemicolons (rustTrim sql)
  if dialect = "mssql".data then
    if containsSubstring (toUpperAscii trimmed) "ORDER BY".data then
      trimmed ++ " OFFSET ".data ++ intToStr offset ++
        " ROWS FETCH NEXT ".data ++ intToStr limit ++ " ROWS ONLY".data
    else
      trimmed ++ " ORDER BY (SELECT NULL) OFFSET ".data ++ intToStr offset ++
        " ROWS FETCH NEXT ".data ++ intToStr limit ++ " ROWS ONLY".data
  else
    "SELECT * FROM (".data ++ trimmed ++ ") AS _df_page LIMIT ".data ++
      intToStr limit ++ " OFFSET ".data ++ intToStr offset

/-- `ColumnDef` of `models/query.rs`. -/
structure ColumnDef where
  name : Str
  data_type : Str
  deriving DecidableEq, Repr

/-- `CellValue` of `models/query.rs`.  The `f64` payload is carried as its
bit pattern; no claim computes with it. -/
inductive CellValue where
  | Null
  | Bool (b : Bool)
  | Int (v : Int)
  | Float (bits : UInt64)
  | Text (v : Str)
  | Timestamp (v : Str)
  | Binary (bytes : List UInt8)
  | Json (v : Str)
  | LargeText (preview : Str) (full_length : Nat)
  | LargeJson (preview : Str) (full_length : Nat)
  | LargeBinary (preview_length : Nat) (full_length : Nat)
  deriving DecidableEq, Repr

/-- `QueryResponse` of `models/query.rs`. -/
structure QueryResponse where
  columns : List ColumnDef
  rows : List (List CellValue)
  row_count : Nat
  execution_time_ms : Nat
  affected_rows : Option Nat
  truncated : Bool
  max_rows_limit : Option Nat
  deriving DecidableEq, Repr

/-- `DEFAULT_MAX_ROWS` of `commands/query.rs`. -/
def DEFAULT_MAX_ROWS : Nat := 10000

/-- One arm of the loop body of `truncate_large_values` (`commands/query.rs`):
oversize `Text`/`Json` cells become `LargeText`/`LargeJson` with a char-count
preview and the UTF-8 byte length, oversize `Binary` cells become
`LargeBinary`; everything else passes through. -/
def truncateCell (max_cell_size : Nat) : CellValue → CellValue
  | .Text v =>
    if utf8Len v > max_cell_size then .LargeText (v.take max_cell_size) (utf8Len v)
    else .Text v
  | .Json v =>
    if utf8Len v > max_cell_size then .LargeJson (v.take max_cell_size) (utf8Len v)
    else .Json v
  | .Binary b =>
    if b.length > max_cell_size then .LargeBinary (min max_cell_size b.length) b.length
    else .Binary b
  | c => c

/-- `truncate_large_values` of `commands/query.rs`: apply `truncateCell` to
every cell of every row in place. -/
def truncate_large_values (resp : QueryResponse) (max_cell_size : Nat) : QueryResponse :=
  { resp with rows := resp.rows.map (fun row => row.map (truncateCell max_cell_size)) }

/-- The row-cap stage of `execute_query` (`commands/query.rs` lines 143-155):
when the driver returned more rows than the cap, truncate and mark. -/
def execute_query_row_cap (resp : QueryResponse) (max_rows : Option Nat) : QueryResponse :=
  let limit := max_rows.getD DEFAULT_MAX_ROWS
  if resp.rows.length > limit then
    { resp with
      rows := resp.rows.take limit
      truncated := true
      max_rows_limit := some limit
      row_count := limit }
  else resp

/-- The full post-processing `execute_query` applies to a successful driver
response: the row cap, then the optional large-cell rewrite. -/
def execute_query_post (resp : QueryResponse) (max_rows max_cell_size : Option Nat) :
    QueryResponse :=
  let r := execute_query_row_cap resp max_rows
  match max_cell_size with
  | some mcs => truncate_large_values r mcs
  | none => r

/-- The double-quote character (U+0022). -/
def dqc : Char := Char.ofNat 34

/-- `DatabaseCategory` of `models/connection.rs`. -/
inductive DatabaseCategory where
  | Relational
  | Analytics
  | Document
  | KeyValue
  | Graph
  | WideColumn
  deriving DecidableEq, Repr

/-- `FilterCondition` of `models/query.rs`. -/
structure FilterCondition where
  column : Str
  operator : Str
  value : Str
  deriving DecidableEq, Repr

/-- `SortColumn` of `models/query.rs`. -/
structure SortColumn where
  column : Str
  direction : Str
  deriving DecidableEq, Repr

/-- The shared body of every arm of `quote_ident` (`commands/schema.rs`):
wrap in double quotes, doubling embedded double quotes. -/
def doubleQuoteIdent (name : Str) : Str :=
  [dqc] ++ name.flatMap (fun c => if c = dqc then [dqc, dqc] else [c]) ++ [dqc]

/-- `quote_ident` of `commands/schema.rs`: every category arm quotes with
double quotes. -/
def quote_ident (name : Str) (category : DatabaseCategory) : Str :=
  match category with
  | .Relational => doubleQuoteIdent name
  | .Analytics => doubleQuoteIdent name
  | .WideColumn => doubleQuoteIdent name
  | _ => doubleQuoteIdent name

/-- Rust `str::replace` of a percent sign by backslash-percent, as applied
to LIKE patterns in `build_where_clause`. -/
def escapePercent (s : Str) : Str :=
  s.flatMap (fun c => if c = '%' then [bsc, '%'] else [c])

/-- The closure inside `build_where_clause` (`commands/schema.rs`): one
rendered clause per recognised operator, `none` for anything else. -/
def renderFilter (category : DatabaseCategory) (f : FilterCondition) : Option Str :=
  let col := quote_ident f.column category
  if f.operator = "eq".data then
    some (col ++ " = ".data ++ [sqc] ++ escape_sql_literal f.value ++ [sqc])
  else if f.operator = "neq".data then
    some (col ++ " != ".data ++ [sqc] ++ escape_sql_literal f.value ++ [sqc])
  else if f.operator = "gt".data then
    some (col ++ " > ".data ++ [sqc] ++ escape_sql_literal f.value ++ [sqc])
  else if f.operator = "gte".data then
    some (col ++ " >= ".data ++ [sqc] ++ escape_sql_literal f.value ++ [sqc])
  else if f.operator = "lt".data then
    some (col ++ " < ".data ++ [sqc] ++ escape_sql_literal f.value ++ [sqc])
  else if f.operator = "lte".data then
    some (col ++ " <= ".data ++ [sqc] ++ escape_sql_literal f.value ++ [sqc])
  else if f.operator = "contains".data then
    some (col ++ " LIKE ".data ++ [sqc, '%'] ++
      escapePercent (escape_sql_literal f.value) ++ ['%', sqc])
  else if f.operator = "starts_with".data then
    some (col ++ " LIKE ".data ++ [sqc] ++
      escapePercent (escape_sql_literal f.value) ++ ['%', sqc])
  else if f.operator = "is_null".data then
    some (col ++ " IS NULL".data)
  else if f.operator = "is_not_null".data then
    some (col ++ " IS NOT NULL".data)
  else none

/-- `build_where_clause` of `commands/schema.rs`: render the recognised
filters and join them under a leading WHERE. -/
def build_where_clause (filters : List FilterCondition) (category : DatabaseCategory) : Str :=
  if filters = [] then []
  else
    let conditions := filters.filterMap (renderFilter category)
    if conditions = [] then []
    else " WHERE ".data ++ List.intercalate " AND ".data conditions

/-- `build_order_by` of `commands/schema.rs`. -/
def build_order_by (sorts : List SortColumn) (category : DatabaseCategory) : Str :=
  if sorts = [] then []
  else
    let clauses := sorts.map (fun s =>
      let dir := if s.direction = "DESC".data then "DESC".data else "ASC".data
      quote_ident s.column category ++ " ".data ++ dir)
    " ORDER BY ".data ++ List.intercalate ", ".data clauses

/-- The closed operator set of the filter translation. -/
def filterOps : List Str :=
  ["eq".data, "neq".data, "gt".data, "gte".data, "lt".data, "lte".data,
   "contains".data, "starts_with".data, "is_null".data, "is_not_null".data]

/-- Outcome of `timeout(duration, handle.base().execute_raw(sql))`: the
driver either answers within the deadline (with a response or an error) or
the deadline elapses.  A driver is modelled as a function from the issued
SQL text to such an outcome. -/
inductive DriverOutcome where
  | result (r : Except AppError QueryResponse)
  | timedOut
  deriving Repr

/-- The COUNT wrapper text built by `count_query_rows` (`commands/query.rs`). -/
def count_sql_of (sql : Str) : Str :=
  "SELECT COUNT(*) AS _df_count FROM (".data ++
    trimEndSemicolons (rustTrim sql) ++ ") AS _df_cnt".data

/-- Rust `str::parse::<i64>`: optional sign, one or more ASCII digits,
rejected outside the 64-bit signed range. -/
def parseI64 (s : Str) : Option Int :=
  let signDigits : Int × Str :=
    match s with
    | '+' :: t => (1, t)
    | '-' :: t => (-1, t)
    | t => (1, t)
  if signDigits.2 = [] then none
  else if signDigits.2.all (fun c => c.isDigit) then
    let n : Nat := signDigits.2.foldl (fun a c => a * 10 + (c.toNat - 48)) 0
    let v : Int := signDigits.1 * n
    if -(2 ^ 63) ≤ v ∧ v ≤ 2 ^ 63 - 1 then some v else none
  else none

/-- The result inspection at the end of `count_query_rows`: first cell of
the first row as an `i64`, with `Ok(0)` fallbacks.  The `f64 as i64` cast
is kept abstract as `floatCast`. -/
def parse_count_cell (floatCast : UInt64 → Int) (resp : QueryResponse) :
    Except AppError Int :=
  match resp.rows with
  | (cell :: _) :: _ =>
    match cell with
    | .Int v => .ok v
    | .Float bits => .ok (floatCast bits)
    | .Text v =>
      match parseI64 v with
      | some n => .ok n
      | none => .error (.Database "Invalid count value".data)
    | _ => .ok 0
  | _ => .ok 0

/-- `count_query_rows` of `commands/query.rs` over an abstract driver:
reject non-paginatable bodies, otherwise issue the COUNT wrapper under the
hard 5-second timeout and inspect the first cell. -/
def count_query_rows (floatCast : UInt64 → Int) (driver : Str → DriverOutcome)
    (sql : Str) : Except AppError Int :=
  if ¬ is_paginatable_query sql then
    .error (.InvalidConfig "Cannot count rows for non-SELECT queries".data)
  else
    match driver (count_sql_of sql) with
    | .timedOut => .error (.QueryTimeout 5)
    | .result (.error e) => .error e
    | .result (.ok resp) => parse_count_cell floatCast resp

/-- The SQL text `execute_query_page` (`commands/query.rs` lines 194-211)
hands to the driver: paginatable bodies get optional ORDER BY injection and
the dialect-aware wrap; everything else is passed through as supplied. -/
def page_sql (sql : Str) (limit offset : Int) (sort_columns : Option (List SortColumn))
    (dialect : Str) (category : DatabaseCategory) : Str :=
  if is_paginatable_query sql then
    match sort_columns with
    | some sorts =>
      if sorts ≠ [] then
        wrap_paginated (trimEndSemicolons (rustTrim sql) ++ build_order_by sorts category)
          limit offset dialect
      else wrap_paginated sql limit offset dialect
    | none => wrap_paginated sql limit offset dialect
  else sql

/-- How `execute_query_page` turns the awaited driver outcome into its
returned value (no `query_id` supplied): timeout maps to `QueryTimeout`,
driver errors propagate, and a successful response passes through the
optional large-cell rewrite. -/
def mapDriverOutcome (secs : Nat) (max_cell_size : Option Nat) :
    DriverOutcome → Except AppError QueryResponse
  | .timedOut => .error (.QueryTimeout secs)
  | .result (.error e) => .error e
  | .result (.ok resp) =>
    .ok (match max_cell_size with
         | some mcs => truncate_large_values resp mcs
         | none => resp)

/-- `execute_query_page` of `commands/query.rs` over an abstract driver,
on the path without a `query_id`. -/
def execute_query_page (driver : Str → DriverOutcome) (sql : Str) (limit offset : Int)
    (sorts : Option (List SortColumn)) (dialect : Str) (category : DatabaseCategory)
    (secs : Nat) (max_cell_size : Option Nat) : Except AppError QueryResponse :=
  mapDriverOutcome secs max_cell_size
    (driver (page_sql sql limit offset sorts dialect category))

/-- Modelled from the spec: `db/cancel.rs` is not under `src/`.  Spec 4.5
describes the cancellation registry as a concurrent map from query id to a
one-shot signal sender; the registry state is modelled as the list of
registered ids. -/
abbrev CancelRegistry := List Str

/-- Modelled from the spec: `register(id)` creates a fresh slot for the id
(map insert). -/
def cancelRegister (reg : CancelRegistry) (id : Str) : CancelRegistry :=
  id :: reg.filter (fun x => decide (x ≠ id))

/-- Modelled from the spec: `remove(id)` drops the slot silently. -/
def cancelRemove (reg : CancelRegistry) (id : Str) : CancelRegistry :=
  reg.filter (fun x => decide (x ≠ id))

/-- Modelled from the spec: `cancel(id)` fires the one-shot signal —
consuming the slot — and reports whether a slot was present. -/
def cancelFire (reg : CancelRegistry) (id : Str) : CancelRegistry × Bool :=
  if id ∈ reg then (cancelRemove reg id, true) else (reg, false)

/-- Which arm of the `tokio::select!` race resolves first; the scheduler is
modelled as this oracle. -/
inductive RaceWinner where
  | cancelArm
  | driverArm (outcome : DriverOutcome)

/-- The brokerage path of `execute_query` when `query_id` is supplied
(`commands/query.rs` lines 115-158): register the id, race the driver
future against the cancel signal, remove the registration on the driver
arm, and post-process a successful response.  The cancel arm resolving
means `cancel_query` fired — and thereby consumed — the slot. -/
def execute_query_with_id (reg : CancelRegistry) (qid : Str) (secs : Nat)
    (winner : RaceWinner) (max_rows max_cell_size : Option Nat) :
    Except AppError QueryResponse × CancelRegistry :=
  let reg1 := cancelRegister reg qid
  match winner with
  | .cancelArm => (.error .QueryCancelled, (cancelFire reg1 qid).1)
  | .driverArm .timedOut => (.error (.QueryTimeout secs), cancelRemove reg1 qid)
  | .driverArm (.result (.error e)) => (.error e, cancelRemove reg1 qid)
  | .driverArm (.result (.ok resp)) =>
    (.ok (execute_query_post resp max_rows max_cell_size), cancelRemove reg1 qid)

/-- A keyring entry key: OS-keyring service name and username. -/
abbrev KeyringKey := Str × Str

/-- The OS keyring, modelled as an association list from (service,
username) to the stored secret. -/
abbrev Keyring := List (KeyringKey × Str)

/-- Keyring lookup: `Entry::get_password`, `None` standing for `NoEntry`. -/
def krGet : Keyring → KeyringKey → Option Str
  | [], _ => none
  | e :: t, k => if e.1 = k then some e.2 else krGet t k

/-- Keyring delete: `Entry::delete_credential`. -/
def krDelete : Keyring → KeyringKey → Keyring
  | [], _ => []
  | e :: t, k => if e.1 = k then krDelete t k else e :: krDelete t k

/-- Keyring store: `Entry::set_password` overwrites any entry under the
same key. -/
def krSet (st : Keyring) (k : KeyringKey) (v : Str) : Keyring :=
  (k, v) :: krDelete st k

/-- `SERVICE_NAME` of `db/keychain.rs`. -/
def SERVICE_NAME : Str := "com.queryark.database-ide".data

/-- `LEGACY_SERVICE_NAME` of `db/keychain.rs`. -/
def LEGACY_SERVICE_NAME : Str := "com.dataforge.database-ide".data

/-- `entry_username` of `db/keychain.rs`: the bare connection id for the
`password` key, `id:key` otherwise. -/
def entry_username (connection_id key : Str) : Str :=
  if key = "password".data then connection_id
  else connection_id ++ ":".data ++ key

/-- `get_secret` of `db/keychain.rs` as a keyring-state transformer: look
up under the current service name; on a miss, fall back to the legacy
service name and migrate (store under the current name, delete the legacy
entry). -/
def get_secret (st : Keyring) (connection_id key : Str) : Option Str × Keyring :=
  let u := entry_username connection_id key
  match krGet st (SERVICE_NAME, u) with
  | some v => (some v, st)
  | none =>
    match krGet st (LEGACY_SERVICE_NAME, u) with
    | some v =>
      (some v, krDelete (krSet st (SERVICE_NAME, u) v) (LEGACY_SERVICE_NAME, u))
    | none => (none, st)

lemma unescape_cons_of_plain (c : Char) (l : Str) (h1 : c ≠ sqc) (h2 : c ≠ bsc) :
    unescape_sql_literal (c :: l) = c :: unescape_sql_literal l := by
  cases l with
  | nil => simp [unescape_sql_literal]
  | cons d r => simp [unescape_sql_literal, h1, h2]

lemma unescape_escape_char (c : Char) (l : Str) :
    unescape_sql_literal (escape_char c ++ l) = c :: unescape_sql_literal l := by
  by_cases h1 : c = sqc
  · subst h1; simp [escape_char, unescape_sql_literal]
  by_cases h2 : c = bsc
  · subst h2; simp [escape_char, unescape_sql_literal, sqc, bsc]
  by_cases h3 : c = nulc
  · subst h3; simp [escape_char, unescape_sql_literal, sqc, bsc, nulc]
  by_cases h4 : c = nlc
  · subst h4; simp [escape_char, unescape_sql_literal, sqc, bsc, nlc]
  by_cases h5 : c = crc
  · subst h5; simp [escape_char, unescape_sql_literal, sqc, bsc, crc]
  by_cases h6 : c = bspc
  · subst h6; simp [escape_char, unescape_sql_literal, sqc, bsc, bspc]
  by_cases h7 : c = subc
  · subst h7; simp [escape_char, unescape_sql_literal, sqc, bsc, subc]
  · simp only [escape_char, h1, h2, h3, h4, h5, h6, h7, if_false]
    simpa using unescape_cons_of_plain c l h1 h2

/-- C7: `unescape_sql_literal` inverts `escape_sql_literal` on every string;
a lone single quote escapes to two single quotes, and the seed input
(O, quote, Brien, line feed, backslash) escapes to O, two quotes, Brien,
backslash-n, backslash-backslash, character by character. -/
theorem escape_sql_literal_roundtrip (s : Str) :
    unescape_sql_literal (escape_sql_literal s) = s
    ∧ escape_sql_literal [sqc] = [sqc, sqc]
    ∧ escape_sql_literal
        (['O', sqc] ++ "Brien".data ++ [nlc, bsc]) =
      (['O', sqc, sqc] ++ "Brien".data ++ [bsc, 'n', bsc, bsc]) := by
  refine ⟨?_, by decide, by decide⟩
  induction s with
  | nil => simp [escape_sql_literal, unescape_sql_literal]
  | cons c t ih =>
    have : escape_sql_literal (c :: t) = escape_char c ++ escape_sql_literal t := by
      simp [escape_sql_literal]
    rw [this, unescape_escape_char, ih]

/-- C8: `validate_identifier` produces an `InvalidConfig` error exactly when
the name is empty or contains a NUL byte, and returns every other name
unchanged. -/
theorem validate_identifier_spec (name : Str) :
    ((∃ msg, validate_identifier name = .error (.InvalidConfig msg)) ↔
      (name = [] ∨ nulc ∈ name))
    ∧ (name ≠ [] → nulc ∉ name → validate_identifier name = .ok name) := by
  by_cases h1 : name = []
  · simp [validate_identifier, h1]
  · by_cases h2 : nulc ∈ name
    · simp [validate_identifier, h1, h2]
    · simp [validate_identifier, h1, h2]

/-- Witness for C8 at the concrete identifier `users`. -/
theorem validate_identifier_spec_witness :
    validate_identifier "users".data = .ok "users".data :=
  (validate_identifier_spec "users".data).2 (by decide) (by decide)

/-- C2: with cap `k`, a driver response holding more than `k` rows is cut to
its first `k` rows with `truncated`, `max_rows_limit` and `row_count` set
accordingly; a response with at most `k` rows passes through untouched; the
missing cap defaults to 10000; and with no cell-size threshold the whole
post-processing is exactly this row cap. -/
theorem execute_query_row_cap_spec (resp : QueryResponse) (k : Nat) :
    (resp.rows.length > k →
      (execute_query_row_cap resp (some k)).rows = resp.rows.take k
      ∧ (execute_query_row_cap resp (some k)).rows.length = k
      ∧ (execute_query_row_cap resp (some k)).truncated = true
      ∧ (execute_query_row_cap resp (some k)).max_rows_limit = some k
      ∧ (execute_query_row_cap resp (some k)).row_count = k)
    ∧ (resp.rows.length ≤ k → execute_query_row_cap resp (some k) = resp)
    ∧ execute_query_row_cap resp none = execute_query_row_cap resp (some DEFAULT_MAX_ROWS)
    ∧ (∀ mr, execute_query_post resp mr none = execute_query_row_cap resp mr) := by
  refine ⟨?_, ?_, rfl, fun mr => rfl⟩
  · intro h
    simp [execute_query_row_cap, h, List.length_take, Nat.min_eq_left (Nat.le_of_lt h)]
  · intro h
    simp [execute_query_row_cap, Nat.not_lt.mpr h]

/-- Witness for C2: a two-row response capped at one row. -/
theorem execute_query_row_cap_spec_witness :
    (QueryResponse.mk [] [[.Int 1], [.Int 2]] 2 0 none false none).rows.length > 1
    ∧ (execute_query_row_cap
        (QueryResponse.mk [] [[.Int 1], [.Int 2]] 2 0 none false none) (some 1)).row_count = 1 :=
  ⟨by decide,
   ((execute_query_row_cap_spec
      (QueryResponse.mk [] [[.Int 1], [.Int 2]] 2 0 none false none) 1).1 (by decide)).2.2.2.2⟩

/-- C3: the large-cell rewriter maps every cell independently; oversize
`Text`/`Json` cells become their `Large` counterpart carrying the first-`t`
character preview and the original byte length, oversize `Binary` cells
become `LargeBinary` with `min t length` preview length and the original
byte count, every other cell is unchanged, and omitting `max_cell_size`
leaves every cell unchanged; the length-4099 seed example holds. -/
theorem truncate_large_values_spec (t : Nat) :
    (∀ resp, truncate_large_values resp t =
      { resp with rows := resp.rows.map (fun row => row.map (truncateCell t)) })
    ∧ (∀ v, utf8Len v > t → truncateCell t (.Text v) = .LargeText (v.take t) (utf8Len v))
    ∧ (∀ v, utf8Len v > t → truncateCell t (.Json v) = .LargeJson (v.take t) (utf8Len v))
    ∧ (∀ b, b.length > t →
        truncateCell t (.Binary b) = .LargeBinary (min t b.length) b.length)
    ∧ (∀ v, utf8Len v ≤ t → truncateCell t (.Text v) = .Text v)
    ∧ (∀ v, utf8Len v ≤ t → truncateCell t (.Json v) = .Json v)
    ∧ (∀ b, b.length ≤ t → truncateCell t (.Binary b) = .Binary b)
    ∧ truncateCell t .Null = .Null
    ∧ (∀ x, truncateCell t (.Bool x) = .Bool x)
    ∧ (∀ x, truncateCell t (.Int x) = .Int x)
    ∧ (∀ x, truncateCell t (.Float x) = .Float x)
    ∧ (∀ x, truncateCell t (.Timestamp x) = .Timestamp x)
    ∧ (∀ p fl, truncateCell t (.LargeText p fl) = .LargeText p fl)
    ∧ (∀ p fl, truncateCell t (.LargeJson p fl) = .LargeJson p fl)
    ∧ (∀ p fl, truncateCell t (.LargeBinary p fl) = .LargeBinary p fl)
    ∧ (∀ resp mr, execute_query_post resp mr none = execute_query_row_cap resp mr)
    ∧ truncateCell 4096 (.Text (List.replicate 4099 'x')) =
        .LargeText (List.replicate 4096 'x') 4099 := by
  refine ⟨fun resp => rfl,
    fun v h => by simp [truncateCell, h],
    fun v h => by simp [truncateCell, h],
    fun b h => by simp [truncateCell, h],
    fun v h => by simp [truncateCell, Nat.not_lt.mpr h],
    fun v h => by simp [truncateCell, Nat.not_lt.mpr h],
    fun b h => by simp [truncateCell, Nat.not_lt.mpr h],
    rfl, fun x => rfl, fun x => rfl, fun x => rfl, fun x => rfl,
    fun p fl => rfl, fun p fl => rfl, fun p fl => rfl,
    fun resp mr => rfl, ?_⟩
  have hx : Char.utf8Size 'x' = 1 := rfl
  have hlen : utf8Len (List.replicate 4099 'x') = 4099 := by
    rw [utf8Len, List.map_replicate, List.sum_replicate, hx, smul_eq_mul, Nat.mul_one]
  have htake : (List.replicate 4099 'x').take 4096 = List.replicate 4096 'x' := by
    rw [List.take_replicate]
    norm_num
  simp only [truncateCell]
  rw [hlen, htake]
  norm_num

/-- Witness for C3: a four-character text cell against threshold two. -/
theorem truncate_large_values_spec_witness :
    utf8Len "abcd".data > 2
    ∧ truncateCell 2 (.Text "abcd".data) = .LargeText "ab".data 4 := by
  have h := (truncate_large_values_spec 2).2.1 "abcd".data (by decide)
  exact ⟨by decide, by rw [h]; decide⟩

lemma renderFilter_none (category : DatabaseCategory) (f : FilterCondition)
    (hf : f.operator ∉ filterOps) : renderFilter category f = none := by
  have h1 : ¬ f.operator = "eq".data := fun h => hf (by rw [h]; decide)
  have h2 : ¬ f.operator = "neq".data := fun h => hf (by rw [h]; decide)
  have h3 : ¬ f.operator = "gt".data := fun h => hf (by rw [h]; decide)
  have h4 : ¬ f.operator = "gte".data := fun h => hf (by rw [h]; decide)
  have h5 : ¬ f.operator = "lt".data := fun h => hf (by rw [h]; decide)
  have h6 : ¬ f.operator = "lte".data := fun h => hf (by rw [h]; decide)
  have h7 : ¬ f.operator = "contains".data := fun h => hf (by rw [h]; decide)
  have h8 : ¬ f.operator = "starts_with".data := fun h => hf (by rw [h]; decide)
  have h9 : ¬ f.operator = "is_null".data := fun h => hf (by rw [h]; decide)
  have h10 : ¬ f.operator = "is_not_null".data := fun h => hf (by rw [h]; decide)
  simp only [renderFilter]
  rw [if_neg h1, if_neg h2, if_neg h3, if_neg h4, if_neg h5, if_neg h6, if_neg h7,
    if_neg h8, if_neg h9, if_neg h10]

lemma renderFilter_isSome (category : DatabaseCategory) (f : FilterCondition)
    (hf : f.operator ∈ filterOps) : (renderFilter category f).isSome = true := by
  obtain ⟨col, op, val⟩ := f
  simp only [filterOps, List.mem_cons, List.not_mem_nil, or_false] at hf
  rcases hf with h | h | h | h | h | h | h | h | h | h <;> subst h <;> rfl

/-- C6: the WHERE-clause builder joins one rendered clause per condition
with a recognised operator under a leading WHERE; operators outside the
closed set yield no clause; each operator renders as stated; and the seed
example produces exactly the expected text. -/
theorem build_where_clause_spec (filters : List FilterCondition) (category : DatabaseCategory) :
    (build_where_clause filters category =
      (if filters.filterMap (renderFilter category) = [] then []
       else " WHERE ".data ++
         List.intercalate " AND ".data (filters.filterMap (renderFilter category))))
    ∧ (∀ f, (renderFilter category f).isSome ↔ f.operator ∈ filterOps)
    ∧ (∀ f, f.operator ∉ filterOps → renderFilter category f = none)
    ∧ (∀ col val, renderFilter category ⟨col, "eq".data, val⟩ =
        some (quote_ident col category ++ " = ".data ++ [sqc] ++
          escape_sql_literal val ++ [sqc]))
    ∧ (∀ col val, renderFilter category ⟨col, "neq".data, val⟩ =
        some (quote_ident col category ++ " != ".data ++ [sqc] ++
          escape_sql_literal val ++ [sqc]))
    ∧ (∀ col val, renderFilter category ⟨col, "gt".data, val⟩ =
        some (quote_ident col category ++ " > ".data ++ [sqc] ++
          escape_sql_literal val ++ [sqc]))
    ∧ (∀ col val, renderFilter category ⟨col, "gte".data, val⟩ =
        some (quote_ident col category ++ " >= ".data ++ [sqc] ++
          escape_sql_literal val ++ [sqc]))
    ∧ (∀ col val, renderFilter category ⟨col, "lt".data, val⟩ =
        some (quote_ident col category ++ " < ".data ++ [sqc] ++
          escape_sql_literal val ++ [sqc]))
    ∧ (∀ col val, renderFilter category ⟨col, "lte".data, val⟩ =
        some (quote_ident col category ++ " <= ".data ++ [sqc] ++
          escape_sql_literal val ++ [sqc]))
    ∧ (∀ col val, renderFilter category ⟨col, "contains".data, val⟩ =
        some (quote_ident col category ++ " LIKE ".data ++ [sqc, '%'] ++
          escapePercent (escape_sql_literal val) ++ ['%', sqc]))
    ∧ (∀ col val, renderFilter category ⟨col, "starts_with".data, val⟩ =
        some (quote_ident col category ++ " LIKE ".data ++ [sqc] ++
          escapePercent (escape_sql_literal val) ++ ['%', sqc]))
    ∧ (∀ col val, renderFilter category ⟨col, "is_null".data, val⟩ =
        some (quote_ident col category ++ " IS NULL".data))
    ∧ (∀ col val, renderFilter category ⟨col, "is_not_null".data, val⟩ =
        some (quote_ident col category ++ " IS NOT NULL".data))
    ∧ build_where_clause
        [⟨"age".data, "gte".data, "18".data⟩,
         ⟨"name".data, "contains".data, ['o', sqc, 'b']⟩] DatabaseCategory.Relational =
      (" WHERE ".data ++ [dqc] ++ "age".data ++ [dqc] ++ " >= ".data ++
        [sqc] ++ "18".data ++ [sqc] ++ " AND ".data ++ [dqc] ++ "name".data ++
        [dqc] ++ " LIKE ".data ++ [sqc, '%'] ++ ['o', sqc, sqc, 'b'] ++ ['%', sqc]) := by
  refine ⟨?_, ?_, ?_,
    fun col val => rfl, fun col val => rfl, fun col val => rfl, fun col val => rfl,
    fun col val => rfl, fun col val => rfl, fun col val => rfl, fun col val => rfl,
    fun col val => rfl, fun col val => rfl, by decide⟩
  · by_cases hf : filters = []
    · subst hf; simp [build_where_clause]
    · simp [build_where_clause, hf]
  · intro f
    constructor
    · intro hs
      by_contra hm
      rw [renderFilter_none category f hm] at hs
      simp at hs
    · exact renderFilter_isSome category f
  · exact renderFilter_none category

/-- Witness for C6: an unknown operator is silently dropped. -/
theorem build_where_clause_spec_witness :
    "between".data ∉ filterOps
    ∧ renderFilter DatabaseCategory.Relational ⟨"a".data, "between".data, "v".data⟩ = none :=
  ⟨by decide,
   (build_where_clause_spec [] DatabaseCategory.Relational).2.2.1
     ⟨"a".data, "between".data, "v".data⟩ (by decide)⟩

lemma parse_count_cell_ne_invalidConfig (floatCast : UInt64 → Int)
    (resp : QueryResponse) (msg : Str) :
    parse_count_cell floatCast resp ≠ .error (.InvalidConfig msg) := by
  unfold parse_count_cell
  rcases resp.rows with _ | ⟨row, rest⟩
  · simp
  · rcases row with _ | ⟨cell, rt⟩
    · simp
    · cases cell <;> simp
      case Text v => cases parseI64 v <;> simp

/-- C5: `count_query_rows` fails with `InvalidConfig` exactly when the body
is not paginatable; for a paginatable body it issues the COUNT wrapper over
the trimmed body, and a timed-out driver yields `QueryTimeout 5`. -/
theorem count_query_rows_spec (floatCast : UInt64 → Int)
    (driver : Str → DriverOutcome) (sql : Str) :
    (is_paginatable_query sql = false →
      count_query_rows floatCast driver sql =
        .error (.InvalidConfig "Cannot count rows for non-SELECT queries".data))
    ∧ (is_paginatable_query sql = true →
        count_sql_of sql =
          "SELECT COUNT(*) AS _df_count FROM (".data ++
            trimEndSemicolons (rustTrim sql) ++ ") AS _df_cnt".data
        ∧ (driver (count_sql_of sql) = .timedOut →
            count_query_rows floatCast driver sql = .error (.QueryTimeout 5))
        ∧ (∀ msg, count_query_rows floatCast driver sql = .error (.InvalidConfig msg) →
            driver (count_sql_of sql) = .result (.error (.InvalidConfig msg)))) := by
  refine ⟨?_, fun hp => ⟨rfl, ?_, ?_⟩⟩
  · intro h
    simp [count_query_rows, h]
  · intro hd
    simp [count_query_rows, hp, hd]
  · intro msg hres
    rcases hd : driver (count_sql_of sql) with r | _
    · rcases r with e | resp
      · simp [count_query_rows, hp, hd] at hres
        simp [hres]
      · rw [count_query_rows, if_neg (by simp [hp]), hd] at hres
        exact absurd hres (parse_count_cell_ne_invalidConfig floatCast resp msg)
    · rw [count_query_rows, if_neg (by simp [hp]), hd] at hres
      simp at hres

/-- Witness for C5: a paginatable body whose driver times out. -/
theorem count_query_rows_spec_witness :
    count_query_rows (fun _ => 0) (fun _ => .timedOut) "SELECT 1".data =
      .error (.QueryTimeout 5) :=
  (((count_query_rows_spec (fun _ => 0) (fun _ => .timedOut) "SELECT 1".data).2
    (by decide)).2.1) rfl

/-- C10: a non-paginatable body is handed to the driver exactly as supplied,
for every limit, offset, sort list, dialect and category, and the command
result is exactly the mapped driver outcome, with no error added. -/
theorem execute_query_page_passthrough (sql : Str)
    (h : is_paginatable_query sql = false) :
    (∀ limit offset sorts dialect category,
      page_sql sql limit offset sorts dialect category = sql)
    ∧ (∀ driver limit offset sorts dialect category secs mcs,
        execute_query_page driver sql limit offset sorts dialect category secs mcs =
          mapDriverOutcome secs mcs (driver sql)) := by
  have hp : ∀ (limit offset : Int) sorts dialect category,
      page_sql sql limit offset sorts dialect category = sql := by
    intro l o s d c
    simp [page_sql, h]
  exact ⟨hp, fun driver l o s d c secs mcs => by rw [execute_query_page, hp]⟩

/-- Witness for C10: an UPDATE statement is passed through unwrapped even
with pagination arguments and sort columns supplied. -/
theorem execute_query_page_passthrough_witness :
    page_sql "UPDATE t SET x = 1".data 10 20 (some [⟨"a".data, "DESC".data⟩])
      "mssql".data DatabaseCategory.Relational = "UPDATE t SET x = 1".data :=
  (execute_query_page_passthrough "UPDATE t SET x = 1".data (by decide)).1
    10 20 (some [⟨"a".data, "DESC".data⟩]) "mssql".data DatabaseCategory.Relational

lemma not_mem_cancelRemove (reg : CancelRegistry) (id : Str) :
    id ∉ cancelRemove reg id := by
  simp [cancelRemove, List.mem_filter]

/-- C4: with a `query_id` supplied, the cancel arm winning yields
`QueryCancelled`, a missed deadline yields `QueryTimeout secs`, a driver
result passes through (post-processed on success) — and on every exit path
the id is no longer registered when the call returns. -/
theorem execute_query_with_id_spec (reg : CancelRegistry) (qid : Str) (secs : Nat)
    (winner : RaceWinner) (mr mcs : Option Nat) :
    (winner = .cancelArm →
      (execute_query_with_id reg qid secs winner mr mcs).1 = .error .QueryCancelled)
    ∧ (winner = .driverArm .timedOut →
      (execute_query_with_id reg qid secs winner mr mcs).1 =
        .error (.QueryTimeout secs))
    ∧ (∀ resp, winner = .driverArm (.result (.ok resp)) →
      (execute_query_with_id reg qid secs winner mr mcs).1 =
        .ok (execute_query_post resp mr mcs))
    ∧ (∀ e, winner = .driverArm (.result (.error e)) →
      (execute_query_with_id reg qid secs winner mr mcs).1 = .error e)
    ∧ qid ∉ (execute_query_with_id reg qid secs winner mr mcs).2 := by
  refine ⟨fun h => by subst h; rfl, fun h => by subst h; rfl,
    fun resp h => by subst h; rfl, fun e h => by subst h; rfl, ?_⟩
  cases winner with
  | cancelArm =>
    simp only [execute_query_with_id, cancelFire]
    rw [if_pos (show qid ∈ cancelRegister reg qid by simp [cancelRegister])]
    exact not_mem_cancelRemove _ _
  | driverArm outcome =>
    cases outcome with
    | timedOut => exact not_mem_cancelRemove _ _
    | result r =>
      cases r with
      | error e => exact not_mem_cancelRemove _ _
      | ok resp => exact not_mem_cancelRemove _ _

/-- Witness for C4: the cancel arm winning on a concrete registration. -/
theorem execute_query_with_id_spec_witness :
    (execute_query_with_id [] "q1".data 30 .cancelArm none none).1 =
      .error .QueryCancelled :=
  (execute_query_with_id_spec [] "q1".data 30 .cancelArm none none).1 rfl

lemma krGet_delete_self (st : Keyring) (k : KeyringKey) :
    krGet (krDelete st k) k = none := by
  induction st with
  | nil => rfl
  | cons e t ih =>
    by_cases he : e.1 = k
    · simp only [krDelete]
      rw [if_pos he]
      exact ih
    · simp only [krDelete]
      rw [if_neg he]
      simp only [krGet]
      rw [if_neg he]
      exact ih

lemma krGet_delete_other (st : Keyring) (k k2 : KeyringKey) (h : k2 ≠ k) :
    krGet (krDelete st k) k2 = krGet st k2 := by
  induction st with
  | nil => rfl
  | cons e t ih =>
    by_cases he : e.1 = k
    · have hne : ¬ (e.1 = k2) := by rw [he]; exact fun hh => h hh.symm
      simp only [krDelete, krGet]
      rw [if_pos he, if_neg hne]
      exact ih
    · by_cases h2 : e.1 = k2
      · simp only [krDelete, krGet]
        rw [if_neg he, if_pos h2]
        simp only [krGet]
        rw [if_pos h2]
      · simp only [krDelete, krGet]
        rw [if_neg he, if_neg h2]
        simp only [krGet]
        rw [if_neg h2]
        exact ih

lemma krGet_set_self (st : Keyring) (k : KeyringKey) (v : Str) :
    krGet (krSet st k v) k = some v := by
  simp [krGet, krSet]

lemma krGet_set_other (st : Keyring) (k k2 : KeyringKey) (v : Str) (h : k2 ≠ k) :
    krGet (krSet st k v) k2 = krGet st k2 := by
  have hne : ¬ ((k, v).1 = k2) := fun hh => h hh.symm
  calc krGet (krSet st k v) k2
      = krGet (krDelete st k) k2 := by simp [krSet, krGet, hne]
    _ = krGet st k2 := krGet_delete_other st k k2 h

/-- C9: when the current service name misses and the legacy one holds the
secret, `get_secret` returns it, re-stores it under the current service
name, deletes the legacy entry, and an immediately following `get_secret`
answers from the current service name with the state unchanged. -/
theorem get_secret_migration (st : Keyring) (cid key v : Str)
    (hcur : krGet st (SERVICE_NAME, entry_username cid key) = none)
    (hleg : krGet st (LEGACY_SERVICE_NAME, entry_username cid key) = some v) :
    (get_secret st cid key).1 = some v
    ∧ krGet (get_secret st cid key).2 (SERVICE_NAME, entry_username cid key) = some v
    ∧ krGet (get_secret st cid key).2 (LEGACY_SERVICE_NAME, entry_username cid key) = none
    ∧ get_secret (get_secret st cid key).2 cid key =
        (some v, (get_secret st cid key).2) := by
  have hres : get_secret st cid key =
      (some v, krDelete (krSet st (SERVICE_NAME, entry_username cid key) v)
        (LEGACY_SERVICE_NAME, entry_username cid key)) := by
    simp [get_secret, hcur, hleg]
  have hneq : (SERVICE_NAME, entry_username cid key) ≠
      (LEGACY_SERVICE_NAME, entry_username cid key) := by
    intro hh
    have hsvc : SERVICE_NAME = LEGACY_SERVICE_NAME := congrArg Prod.fst hh
    exact absurd hsvc (by decide)
  have hcur2 : krGet (get_secret st cid key).2
      (SERVICE_NAME, entry_username cid key) = some v := by
    rw [hres]
    show krGet (krDelete (krSet st (SERVICE_NAME, entry_username cid key) v)
      (LEGACY_SERVICE_NAME, entry_username cid key))
      (SERVICE_NAME, entry_username cid key) = some v
    rw [krGet_delete_other _ _ _ hneq, krGet_set_self]
  refine ⟨by rw [hres], hcur2, ?_, ?_⟩
  · rw [hres]
    exact krGet_delete_self _ _
  · generalize hg : (get_secret st cid key).2 = st2 at hcur2 ⊢
    simp [get_secret, hcur2]

/-- Witness for C9: a single legacy entry for the `password` key migrates. -/
theorem get_secret_migration_witness :
    (get_secret [((LEGACY_SERVICE_NAME, "c1".data), "pw".data)]
      "c1".data "password".data).1 = some "pw".data :=
  (get_secret_migration [((LEGACY_SERVICE_NAME, "c1".data), "pw".data)]
    "c1".data "password".data "pw".data (by decide) (by decide)).1

end QueryArk
